import Mathlib

/-!
Shallow embedding of the healthy-lunch ranking pipeline (`src/main.py`).

The embedded core is the nutrition normalization / filtering / scoring /
ranking pipeline:

* `_num`, `normalize_item` — lines 82–117 of `main.py`;
* `allowed` — lines 120–125;
* `score`, `get_protein_score`, `get_volume_score` — lines 128–139;
* `get_healthy_meals` — lines 213–238 (the per-future loop with its
  `except Exception: continue` handler; the list of fetch outcomes is given
  in completion order, i.e. the order `as_completed` yields futures);
* the ranking expression of `main` (line 245):
  `sorted(get_healthy_meals(lunch_items), key=score, reverse=True)[:TOP_N]`.

Python exceptions are modelled with `Except PyErr`; an uncaught exception is
an `Except.error`.  Python float values are modelled as exact fractions
(`PyNum`, an integer numerator over a natural denominator, kept positive by
construction); `PyNum.toRat` interprets such a fraction as a rational number.
`CPython`'s `sorted` with a key function first computes every key in list
order (propagating the first exception) and then performs a stable sort;
`reverse=True` gives the descending order while still keeping ties in
original order.  That behaviour is embedded by `exMapM` plus the stable
insertion sort `isortDesc`.
-/

/-- Python exception kinds that the embedded pipeline can raise. -/
inductive PyErr where
  | typeError
  | zeroDivisionError
  | keyError
  | attributeError
  | fetchError
deriving DecidableEq, Repr

/-- An exact fraction modelling a Python float produced by the pipeline:
`num / den`.  Every constructor used by the pipeline keeps `den` positive. -/
structure PyNum where
  num : Int
  den : Nat
deriving DecidableEq, Repr

/-- A Python int embedded as a float value. -/
def PyNum.ofInt (n : Int) : PyNum := ⟨n, 1⟩

/-- The rational value denoted by a `PyNum`. -/
def PyNum.toRat (x : PyNum) : ℚ := (x.num : ℚ) / (x.den : ℚ)

/-- Cross-multiplication comparison `x ≤ y` (agrees with `toRat` order when
both denominators are positive). -/
def PyNum.leB (x y : PyNum) : Bool := x.num * (y.den : Int) ≤ y.num * (x.den : Int)

/-- Cross-multiplication comparison `x < y`. -/
def PyNum.ltB (x y : PyNum) : Bool := x.num * (y.den : Int) < y.num * (x.den : Int)

/-- Cross-multiplication equality test (numeric equality of the fractions). -/
def PyNum.eqB (x y : PyNum) : Bool := x.num * (y.den : Int) == y.num * (x.den : Int)

/-- Product of two fractions (Python float multiplication, exactly). -/
def PyNum.mul (x y : PyNum) : PyNum := ⟨x.num * y.num, x.den * y.den⟩

/-- Quotient of two fractions; callers guard the `y.num = 0` case
(Python raises `ZeroDivisionError` there).  The sign of `y.num` is moved to
the numerator so the denominator stays positive. -/
def PyNum.div (x y : PyNum) : PyNum :=
  if y.num < 0 then ⟨-(x.num * (y.den : Int)), x.den * y.num.natAbs⟩
  else ⟨x.num * (y.den : Int), x.den * y.num.natAbs⟩

/-- `x * y` where `x` is a possibly-absent Python value: `None * y` raises
`TypeError`, as in Python. -/
def pyMul (x : Option PyNum) (y : PyNum) : Except PyErr PyNum :=
  match x with
  | none => .error .typeError
  | some a => .ok (a.mul y)

/-- `x / y` where `y` is a possibly-absent Python value: `x / None` raises
`TypeError`, `x / 0` raises `ZeroDivisionError`, as in Python. -/
def pyDiv (x : PyNum) (y : Option PyNum) : Except PyErr PyNum :=
  match y with
  | none => .error .typeError
  | some b => if b.num = 0 then .error .zeroDivisionError else .ok (x.div b)

-- ===================== strings =====================

/-- ASCII lower-casing of one character (models `str.lower` on the ASCII
range, the range exercised by the menu data). -/
def lowerChar (c : Char) : Char :=
  if 65 ≤ c.toNat ∧ c.toNat ≤ 90 then Char.ofNat (c.toNat + 32) else c

/-- `s.lower()` on ASCII text. -/
def pyLower (s : String) : String := ⟨s.data.map lowerChar⟩

/-- Does `pat` occur at the head of `cs`? -/
def headMatch : List Char → List Char → Bool
  | [], _ => true
  | _ :: _, [] => false
  | a :: as, b :: bs => a == b && headMatch as bs

/-- Does `pat` occur anywhere in `cs`? -/
def hasSubstr (pat : List Char) : List Char → Bool
  | [] => pat.isEmpty
  | b :: bs => headMatch pat (b :: bs) || hasSubstr pat bs

/-- Python's `pat in hay` substring test. -/
def strContains (hay pat : String) : Bool := hasSubstr pat.data hay.data

-- ===================== float parsing =====================

/-- All characters are ASCII digits. -/
def allDigits (cs : List Char) : Bool := cs.all (fun c => c.isDigit)

/-- The natural number denoted by a list of ASCII digits. -/
def natOfDigits (cs : List Char) : Nat := cs.foldl (fun a c => a * 10 + (c.toNat - 48)) 0

/-- Split a character list at the first `'.'` (integer part, fractional part
if a dot is present). -/
def splitAtDot : List Char → List Char × Option (List Char)
  | [] => ([], none)
  | c :: t =>
    if c = '.' then ([], some t)
    else
      let r := splitAtDot t
      (c :: r.1, r.2)

/-- Python's `float(s)` on plain decimal literals (optional sign, digits,
optional fractional part): `none` when the string does not parse.  The
exotic accepted forms (`"1e3"`, `"inf"`, `"nan"`, surrounding whitespace) do
not occur in the menu data and are treated as parse failures. -/
def pyFloat (s : String) : Option PyNum :=
  let sgn : Bool × List Char :=
    match s.data with
    | '-' :: t => (true, t)
    | '+' :: t => (false, t)
    | cs => (false, cs)
  let parts := splitAtDot sgn.2
  let ip := parts.1
  let signed (n : Nat) : Int := if sgn.1 then -(n : Int) else (n : Int)
  match parts.2 with
  | none =>
    if !ip.isEmpty && allDigits ip then some ⟨signed (natOfDigits ip), 1⟩ else none
  | some fp =>
    if allDigits ip && allDigits fp && (!ip.isEmpty || !fp.isEmpty) then
      some ⟨signed (natOfDigits (ip ++ fp)), 10 ^ fp.length⟩
    else none

-- ===================== data model =====================

/-- One entry of the `nutrition_details` mapping: a `{value, unit}` dict.
`value`/`unit` are `none` when the corresponding key is absent (a JSON null
behaves the same as an absent key for the fields the pipeline reads). -/
structure NutritionEntry where
  value : Option String
  unit : Option String
deriving DecidableEq, Repr

/-- One item of the raw payload: its `nutrition_details` dict (when present)
and its `ingredient_details` string (when present). -/
structure RawItem where
  nutrition_details : Option (List (String × NutritionEntry))
  ingredient_details : Option String
deriving DecidableEq, Repr

/-- The raw nutrition payload: `raw["items"]`, a dict keyed by item id. -/
structure RawPayload where
  items : List (String × RawItem)
deriving DecidableEq, Repr

/-- A menu item as extracted from the lunch page. -/
structure MenuItem where
  id : String
  nonce : String
  name : String
deriving DecidableEq, Repr

/-- The canonical nutrition record built by `normalize_item`
(`main.py` lines 103–117). -/
structure NutritionRecord where
  id : String
  name : String
  calories : Option PyNum
  protein_g : Option PyNum
  fat_g : Option PyNum
  carbs_g : Option PyNum
  serving_size : Option PyNum
  serving_size_unit : Option String
  ingredients : String
  dairy_free : Bool
deriving DecidableEq, Repr

-- ===================== the pipeline =====================

/-- `_num` (`main.py` lines 82–87): `nutrition.get(key, {}).get("value", "")`,
then `cast(value) if value != "" else None`, catching `ValueError`/`TypeError`
into `None`.  Every call site passes `cast=float`. -/
def _num (nutrition : List (String × NutritionEntry)) (key : String) : Option PyNum :=
  let value : String :=
    match List.lookup key nutrition with
    | none => ""
    | some e => e.value.getD ""
  if value = "" then none else pyFloat value

/-- The six dairy keywords of `main.py` lines 113–116. -/
def dairyKeywords : List String := ["milk", "cheese", "butter", "cream", "whey", "casein"]

/-- `normalize_item` (`main.py` lines 90–117).  `raw["items"][id]` raises
`KeyError` on a missing id; `nutrition.get("servingSize").get("unit")` raises
`AttributeError` when `servingSize` is absent (`None.get`). -/
def normalize_item (raw : RawPayload) (name id : String) : Except PyErr NutritionRecord :=
  match List.lookup id raw.items with
  | none => .error .keyError
  | some item =>
    let nutrition := item.nutrition_details.getD []
    let ingredients := pyLower (item.ingredient_details.getD "")
    let calories := _num nutrition "calories"
    let protein := _num nutrition "proteinContent"
    let fat := _num nutrition "fatContent"
    let carbs := _num nutrition "carbohydrateContent"
    let serving_size := _num nutrition "servingSize"
    match List.lookup "servingSize" nutrition with
    | none => .error .attributeError
    | some entry =>
      .ok { id := id
            name := name
            calories := calories
            protein_g := protein
            fat_g := fat
            carbs_g := carbs
            serving_size := serving_size
            serving_size_unit := entry.unit
            ingredients := ingredients
            dairy_free := !(dairyKeywords.any (fun x => strContains ingredients x)) }

/-- `allowed` (`main.py` lines 120–125).  `item["calories"] > MAX_CALORIES`
raises `TypeError` when `calories` is `None`; likewise for the
`item["protein_g"] < MIN_GRAMS_PROTEIN` comparison. -/
def allowed (maxCalories minProtein : Int) (item : NutritionRecord) : Except PyErr Bool :=
  match item.calories with
  | none => .error .typeError
  | some c =>
    if PyNum.ltB (PyNum.ofInt maxCalories) c then .ok false
    else
      match item.protein_g with
      | none => .error .typeError
      | some p =>
        if PyNum.ltB p (PyNum.ofInt minProtein) then .ok false else .ok true

/-- `get_protein_score` (`main.py` lines 132–134):
`(item["protein_g"] * 10) / item["calories"]`. -/
def get_protein_score (item : NutritionRecord) : Except PyErr PyNum :=
  match pyMul item.protein_g (PyNum.ofInt 10) with
  | .error e => .error e
  | .ok n => pyDiv n item.calories

/-- `get_volume_score` (`main.py` lines 137–139):
`item["serving_size"] * 100 / item["calories"]`. -/
def get_volume_score (item : NutritionRecord) : Except PyErr PyNum :=
  match pyMul item.serving_size (PyNum.ofInt 100) with
  | .error e => .error e
  | .ok n => pyDiv n item.calories

/-- `score` (`main.py` lines 128–129). -/
def score (item : NutritionRecord) : Except PyErr PyNum :=
  match get_protein_score item with
  | .error e => .error e
  | .ok p =>
    match get_volume_score item with
    | .error e => .error e
    | .ok v => .ok (p.mul v)

/-- Does `r` score exactly the (rational) value of `q`?  Used to state the
stable-sort property: the subsequence of records of one given score. -/
def scoreEqB (q : PyNum) (r : NutritionRecord) : Bool :=
  match score r with
  | .ok s => PyNum.eqB s q
  | .error _ => false

/-- One fetch task outcome: the menu item together with the result of
`future.result()` (the raw payload, or the exception the fetch raised). -/
abbrev FetchOutcome : Type := MenuItem × Except PyErr RawPayload

/-- The body of the `as_completed` loop of `get_healthy_meals`
(`main.py` lines 226–236) for one future: `future.result()`, then
`normalize_item`, then `allowed`, appending the record when allowed;
any exception is swallowed (`except Exception: continue`). -/
def processOne (maxCalories minProtein : Int) (task : FetchOutcome) :
    Option NutritionRecord :=
  match
    (match task.2 with
     | .error e => .error e
     | .ok raw =>
       match normalize_item raw task.1.name task.1.id with
       | .error e => .error e
       | .ok normalized =>
         match allowed maxCalories minProtein normalized with
         | .error e => .error e
         | .ok ok => .ok (if ok then some normalized else none)
      : Except PyErr (Option NutritionRecord))
  with
  | .error _ => none
  | .ok r => r

/-- `get_healthy_meals` (`main.py` lines 213–238): the collected records, in
completion order of the futures (the order of `tasks`). -/
def get_healthy_meals (maxCalories minProtein : Int) (tasks : List FetchOutcome) :
    List NutritionRecord :=
  tasks.filterMap (processOne maxCalories minProtein)

/-- `List.mapM` over `Except`, written structurally: computing the sort keys
in list order, stopping at the first exception — exactly what CPython's
`sorted(..., key=f)` does before sorting. -/
def exMapM (f : α → Except PyErr β) : List α → Except PyErr (List β)
  | [] => .ok []
  | x :: xs =>
    match f x with
    | .error e => .error e
    | .ok y =>
      match exMapM f xs with
      | .error e => .error e
      | .ok ys => .ok (y :: ys)

/-- Insert a keyed element into a descending-sorted list of keyed elements,
keeping it in front of every element whose key is `≤` its own (this makes the
sort stable: an element inserted later — i.e. originally earlier — precedes
the equal-keyed elements already present). -/
def insertDesc (p : α × PyNum) : List (α × PyNum) → List (α × PyNum)
  | [] => [p]
  | q :: qs => if PyNum.leB q.2 p.2 then p :: q :: qs else q :: insertDesc p qs

/-- Stable insertion sort, descending by key: the behaviour of CPython's
`sorted(..., reverse=True)` on the (element, key) pairs. -/
def isortDesc : List (α × PyNum) → List (α × PyNum)
  | [] => []
  | p :: ps => insertDesc p (isortDesc ps)

/-- The ranking expression of `main` (`main.py` line 245):
`sorted(get_healthy_meals(lunch_items), key=score, reverse=True)[:TOP_N]`,
starting from the fetch outcomes in completion order.  An exception raised
while `sorted` computes a key propagates out of `main` (there is no handler
there). -/
def mainRanking (maxCalories minProtein : Int) (topN : Nat)
    (tasks : List FetchOutcome) : Except PyErr (List NutritionRecord) :=
  match exMapM score (get_healthy_meals maxCalories minProtein tasks) with
  | .error e => .error e
  | .ok ks =>
    .ok (((isortDesc ((get_healthy_meals maxCalories minProtein tasks).zip ks)).map
      Prod.fst).take topN)

/-- `MAX_CALORIES` default (`main.py` line 17). -/
def MAX_CALORIES : Int := 850

/-- `MIN_GRAMS_PROTEIN` default (`main.py` line 18). -/
def MIN_GRAMS_PROTEIN : Int := 25

/-- `TOP_N` (`main.py` line 37). -/
def TOP_N : Nat := 5

deriving instance DecidableEq for Except

/-- An optional number has a positive denominator when present. -/
def optDenPos : Option PyNum → Prop
  | none => True
  | some x => 0 < x.den

/-- Every numeric field of the record has a positive denominator — an
invariant of all records built by `normalize_item` (their numbers come from
`pyFloat`). -/
def NutritionRecord.numsWf (r : NutritionRecord) : Prop :=
  optDenPos r.calories ∧ optDenPos r.protein_g ∧ optDenPos r.fat_g ∧
    optDenPos r.carbs_g ∧ optDenPos r.serving_size

-- ===================== concrete inputs =====================

/-- A well-formed payload item: 500 kcal, 40 g protein, 300 g serving. -/
def itemGood : RawItem :=
  { nutrition_details := some
      [("calories", ⟨some "500", some "kcal"⟩),
       ("proteinContent", ⟨some "40", some "g"⟩),
       ("fatContent", ⟨some "12", some "g"⟩),
       ("carbohydrateContent", ⟨some "55", some "g"⟩),
       ("servingSize", ⟨some "300", some "g"⟩)]
    ingredient_details := some "Grilled Chicken, Brown Rice, Olive Oil" }

/-- The record `normalize_item` builds from `itemGood`. -/
def recGood : NutritionRecord :=
  { id := "101", name := "Chicken Bowl"
    calories := some ⟨500, 1⟩, protein_g := some ⟨40, 1⟩
    fat_g := some ⟨12, 1⟩, carbs_g := some ⟨55, 1⟩
    serving_size := some ⟨300, 1⟩, serving_size_unit := some "g"
    ingredients := "grilled chicken, brown rice, olive oil", dairy_free := true }

/-- Over the calorie cap: 900 kcal. -/
def itemOverCap : RawItem :=
  { nutrition_details := some
      [("calories", ⟨some "900", some "kcal"⟩),
       ("proteinContent", ⟨some "50", some "g"⟩),
       ("servingSize", ⟨some "400", some "g"⟩)]
    ingredient_details := some "Mac and Cheese" }

/-- Same score as `itemGood` (48): 500 kcal, 30 g protein, 400 g serving. -/
def itemTie : RawItem :=
  { nutrition_details := some
      [("calories", ⟨some "500", some "kcal"⟩),
       ("proteinContent", ⟨some "30", some "g"⟩),
       ("servingSize", ⟨some "400", some "g"⟩)]
    ingredient_details := some "Turkey Wrap" }

/-- The record `normalize_item` builds from `itemTie`. -/
def recTie : NutritionRecord :=
  { id := "103", name := "Turkey Wrap"
    calories := some ⟨500, 1⟩, protein_g := some ⟨30, 1⟩
    fat_g := none, carbs_g := none
    serving_size := some ⟨400, 1⟩, serving_size_unit := some "g"
    ingredients := "turkey wrap", dairy_free := true }

/-- Zero calories with enough protein: passes the filter, breaks the scorer. -/
def itemZeroCal : RawItem :=
  { nutrition_details := some
      [("calories", ⟨some "0", some "kcal"⟩),
       ("proteinContent", ⟨some "30", some "g"⟩),
       ("servingSize", ⟨some "1", some "g"⟩)]
    ingredient_details := some "Broth" }

/-- The record `normalize_item` builds from `itemZeroCal`. -/
def recZeroCal : NutritionRecord :=
  { id := "104", name := "Broth"
    calories := some ⟨0, 1⟩, protein_g := some ⟨30, 1⟩
    fat_g := none, carbs_g := none
    serving_size := some ⟨1, 1⟩, serving_size_unit := some "g"
    ingredients := "broth", dairy_free := true }

/-- `servingSize` present but with an empty value: the record passes the
filter with `serving_size = none`. -/
def itemNoServingVal : RawItem :=
  { nutrition_details := some
      [("calories", ⟨some "500", some "kcal"⟩),
       ("proteinContent", ⟨some "40", some "g"⟩),
       ("servingSize", ⟨some "", some "oz"⟩)]
    ingredient_details := some "Beef Stew" }

/-- The record `normalize_item` builds from `itemNoServingVal`. -/
def recNoServingVal : NutritionRecord :=
  { id := "105", name := "Beef Stew"
    calories := some ⟨500, 1⟩, protein_g := some ⟨40, 1⟩
    fat_g := none, carbs_g := none
    serving_size := none, serving_size_unit := some "oz"
    ingredients := "beef stew", dairy_free := true }

/-- The `servingSize` key itself is absent: normalization fails. -/
def itemNoServingKey : RawItem :=
  { nutrition_details := some
      [("calories", ⟨some "500", some "kcal"⟩),
       ("proteinContent", ⟨some "40", some "g"⟩)]
    ingredient_details := some "Mystery Dish" }

/-- A record whose `calories` field is absent (filter raises on it). -/
def recNoCalories : NutritionRecord :=
  { id := "107", name := "Unlabeled Salad"
    calories := none, protein_g := some ⟨30, 1⟩
    fat_g := none, carbs_g := none
    serving_size := some ⟨200, 1⟩, serving_size_unit := some "g"
    ingredients := "greens", dairy_free := true }

/-- A record whose `protein_g` field is absent, calories under the cap. -/
def recNoProtein : NutritionRecord :=
  { id := "108", name := "Fruit Cup"
    calories := some ⟨120, 1⟩, protein_g := none
    fat_g := none, carbs_g := none
    serving_size := some ⟨150, 1⟩, serving_size_unit := some "g"
    ingredients := "melon, grapes", dairy_free := true }

/-- Menu items for the concrete payloads. -/
def miGood : MenuItem := ⟨"101", "n1", "Chicken Bowl"⟩

def miOverCap : MenuItem := ⟨"102", "n2", "Mac and Cheese"⟩

def miTie : MenuItem := ⟨"103", "n3", "Turkey Wrap"⟩

def miZeroCal : MenuItem := ⟨"104", "n4", "Broth"⟩

def miNoServingVal : MenuItem := ⟨"105", "n5", "Beef Stew"⟩

def miNoServingKey : MenuItem := ⟨"106", "n6", "Mystery Dish"⟩

def miFail : MenuItem := ⟨"109", "n9", "Unreachable"⟩

/-- One-item payload keyed by the given id. -/
def payloadFor (id : String) (item : RawItem) : RawPayload := ⟨[(id, item)]⟩

/-- Completion-ordered fetch outcomes: a good item, an over-cap item and a
failed fetch. -/
def tasksMixed : List FetchOutcome :=
  [(miGood, .ok (payloadFor "101" itemGood)),
   (miOverCap, .ok (payloadFor "102" itemOverCap)),
   (miFail, .error .fetchError)]

/-- Two items with equal scores, good first. -/
def tasksTie : List FetchOutcome :=
  [(miGood, .ok (payloadFor "101" itemGood)),
   (miTie, .ok (payloadFor "103" itemTie))]

/-- A single zero-calorie item. -/
def tasksZeroCal : List FetchOutcome :=
  [(miZeroCal, .ok (payloadFor "104" itemZeroCal))]

/-- A single item whose serving size value is empty. -/
def tasksNoServingVal : List FetchOutcome :=
  [(miNoServingVal, .ok (payloadFor "105" itemNoServingVal))]

example : pyFloat "500" = some ⟨500, 1⟩ := by decide
example : pyFloat "12.5" = some ⟨125, 10⟩ := by decide
example : pyFloat "-3.25" = some ⟨-325, 100⟩ := by decide
example : pyFloat "abc" = none := by decide
example : pyFloat "" = none := by decide
example : pyLower "MiLk and Honey" = "milk and honey" := by decide
example : strContains "whole milk solids" "milk" = true := by decide
example : strContains "almond beverage" "milk" = false := by decide
example : normalize_item (payloadFor "101" itemGood) "Chicken Bowl" "101" = .ok recGood := by decide
example : get_healthy_meals 850 25 tasksMixed = [recGood] := by decide
example : mainRanking 850 25 5 tasksMixed = .ok [recGood] := by decide
example : mainRanking 850 25 5 tasksTie = .ok [recGood, recTie] := by decide
example : mainRanking 850 25 5 tasksZeroCal = .error .zeroDivisionError := by decide
example : mainRanking 850 25 5 tasksNoServingVal = .error .typeError := by decide
example : allowed 850 25 recNoCalories = .error .typeError := by decide
example : score recGood = .ok ⟨12000000, 250000⟩ := by decide
example : score recTie = .ok ⟨12000000, 250000⟩ := by decide

-- ===================== PyNum lemmas =====================

theorem PyNum.toRat_ofInt (n : Int) : (PyNum.ofInt n).toRat = (n : ℚ) := by
  simp [PyNum.ofInt, PyNum.toRat]

theorem PyNum.ofInt_den_pos (n : Int) : 0 < (PyNum.ofInt n).den := Nat.one_pos

theorem PyNum.leB_iff {x y : PyNum} (hx : 0 < x.den) (hy : 0 < y.den) :
    x.leB y = true ↔ x.toRat ≤ y.toRat := by
  have hx' : (0 : ℚ) < (x.den : ℚ) := by exact_mod_cast hx
  have hy' : (0 : ℚ) < (y.den : ℚ) := by exact_mod_cast hy
  rw [PyNum.leB, decide_eq_true_eq, PyNum.toRat, PyNum.toRat, div_le_div_iff hx' hy']
  constructor
  · intro h; exact_mod_cast h
  · intro h; exact_mod_cast h

theorem PyNum.ltB_iff {x y : PyNum} (hx : 0 < x.den) (hy : 0 < y.den) :
    x.ltB y = true ↔ x.toRat < y.toRat := by
  have hx' : (0 : ℚ) < (x.den : ℚ) := by exact_mod_cast hx
  have hy' : (0 : ℚ) < (y.den : ℚ) := by exact_mod_cast hy
  rw [PyNum.ltB, decide_eq_true_eq, PyNum.toRat, PyNum.toRat, div_lt_div_iff hx' hy']
  constructor
  · intro h; exact_mod_cast h
  · intro h; exact_mod_cast h

theorem PyNum.eqB_iff {x y : PyNum} (hx : 0 < x.den) (hy : 0 < y.den) :
    x.eqB y = true ↔ x.toRat = y.toRat := by
  have hx' : (x.den : ℚ) ≠ 0 := by positivity
  have hy' : (y.den : ℚ) ≠ 0 := by positivity
  rw [PyNum.eqB, beq_iff_eq, PyNum.toRat, PyNum.toRat, div_eq_div_iff hx' hy']
  constructor
  · intro h; exact_mod_cast h
  · intro h; exact_mod_cast h

theorem PyNum.ltB_false_le {x y : PyNum} (hx : 0 < x.den) (hy : 0 < y.den)
    (h : x.ltB y = false) : y.toRat ≤ x.toRat := by
  have := (PyNum.ltB_iff hx hy).not.mp (by simp [h])
  exact le_of_not_lt this

theorem PyNum.leB_of_not_leB {x y : PyNum} (h : x.leB y = false) : y.leB x = true := by
  simp only [PyNum.leB, decide_eq_false_iff_not, decide_eq_true_eq] at h ⊢
  linarith [lt_of_not_ge h]

theorem PyNum.leB_trans {a b c : PyNum} (hb : 0 < b.den)
    (h1 : a.leB b = true) (h2 : b.leB c = true) : a.leB c = true := by
  simp only [PyNum.leB, decide_eq_true_eq] at h1 h2 ⊢
  have hb' : (0 : Int) < (b.den : Int) := by exact_mod_cast hb
  have hc' : (0 : Int) ≤ (c.den : Int) := Int.natCast_nonneg _
  have ha' : (0 : Int) ≤ (a.den : Int) := Int.natCast_nonneg _
  nlinarith [mul_le_mul_of_nonneg_right h1 hc', mul_le_mul_of_nonneg_right h2 ha']

theorem PyNum.leB_of_eqB_eqB {a b q : PyNum} (hq : 0 < q.den)
    (ha : a.eqB q = true) (hb : b.eqB q = true) : b.leB a = true := by
  simp only [PyNum.eqB, beq_iff_eq] at ha hb
  simp only [PyNum.leB, decide_eq_true_eq]
  have hq' : (q.den : Int) ≠ 0 := by
    exact_mod_cast Nat.pos_iff_ne_zero.mp hq
  have key : b.num * (a.den : Int) * (q.den : Int) = a.num * (b.den : Int) * (q.den : Int) := by
    calc b.num * (a.den : Int) * (q.den : Int)
        = (b.num * (q.den : Int)) * (a.den : Int) := by ring
      _ = (q.num * (b.den : Int)) * (a.den : Int) := by rw [hb]
      _ = (q.num * (a.den : Int)) * (b.den : Int) := by ring
      _ = (a.num * (q.den : Int)) * (b.den : Int) := by rw [ha]
      _ = a.num * (b.den : Int) * (q.den : Int) := by ring
  exact le_of_eq (mul_right_cancel₀ hq' key)

theorem PyNum.mul_den_pos {x y : PyNum} (hx : 0 < x.den) (hy : 0 < y.den) :
    0 < (x.mul y).den := Nat.mul_pos hx hy

theorem PyNum.div_den_pos {x y : PyNum} (hx : 0 < x.den) (hy : y.num ≠ 0) :
    0 < (x.div y).den := by
  unfold PyNum.div
  split <;> exact Nat.mul_pos hx (Int.natAbs_pos.mpr hy)

-- ===================== exMapM lemmas =====================

theorem exMapM_ok_length {f : α → Except PyErr β} {xs : List α} {ys : List β}
    (h : exMapM f xs = .ok ys) : ys.length = xs.length := by
  induction xs generalizing ys with
  | nil =>
    unfold exMapM at h
    injection h with h
    subst h
    rfl
  | cons x xs ih =>
    unfold exMapM at h
    rcases hx : f x with e | y <;> rw [hx] at h
    · cases h
    · rcases hr : exMapM f xs with e | zs <;> rw [hr] at h
      · cases h
      · injection h with h
        subst h
        simp [ih hr]

theorem exMapM_ok_zip {f : α → Except PyErr β} {xs : List α} {ys : List β}
    (h : exMapM f xs = .ok ys) : ∀ p ∈ xs.zip ys, f p.1 = .ok p.2 := by
  induction xs generalizing ys with
  | nil => intro p hp; simp at hp
  | cons x xs ih =>
    unfold exMapM at h
    rcases hx : f x with e | y <;> rw [hx] at h
    · cases h
    · rcases hr : exMapM f xs with e | zs <;> rw [hr] at h
      · cases h
      · injection h with h
        subst h
        intro p hp
        rw [List.zip_cons_cons] at hp
        rcases List.mem_cons.mp hp with rfl | hp
        · exact hx
        · exact ih hr p hp

-- ===================== sorting lemmas =====================

theorem insertDesc_perm (p : α × PyNum) (l : List (α × PyNum)) :
    (insertDesc p l).Perm (p :: l) := by
  induction l with
  | nil => exact List.Perm.refl _
  | cons q qs ih =>
    unfold insertDesc
    split_ifs with h
    · exact List.Perm.refl _
    · exact (ih.cons q).trans (List.Perm.swap p q qs)

theorem isortDesc_perm (l : List (α × PyNum)) : (isortDesc l).Perm l := by
  induction l with
  | nil => exact List.Perm.refl _
  | cons p ps ih => exact (insertDesc_perm p (isortDesc ps)).trans (ih.cons p)

theorem insertDesc_pairwise {p : α × PyNum} {l : List (α × PyNum)}
    (hl : ∀ x ∈ l, 0 < x.2.den)
    (h : l.Pairwise (fun a b => PyNum.leB b.2 a.2 = true)) :
    (insertDesc p l).Pairwise (fun a b => PyNum.leB b.2 a.2 = true) := by
  induction l with
  | nil => simp [insertDesc]
  | cons q qs ih =>
    rcases List.pairwise_cons.mp h with ⟨hq, hqs⟩
    unfold insertDesc
    split_ifs with hle
    · refine List.pairwise_cons.mpr ⟨?_, h⟩
      intro x hx
      rcases List.mem_cons.mp hx with rfl | hxqs
      · exact hle
      · exact PyNum.leB_trans (hl q (List.mem_cons_self q qs)) (hq x hxqs) hle
    · refine List.pairwise_cons.mpr ⟨?_, ih (fun x hx => hl x (List.mem_cons_of_mem q hx)) hqs⟩
      intro x hx
      rcases List.mem_cons.mp ((insertDesc_perm p qs).subset hx) with rfl | hxqs
      · exact PyNum.leB_of_not_leB (by simpa using hle)
      · exact hq x hxqs

theorem isortDesc_pairwise {l : List (α × PyNum)} (hl : ∀ x ∈ l, 0 < x.2.den) :
    (isortDesc l).Pairwise (fun a b => PyNum.leB b.2 a.2 = true) := by
  induction l with
  | nil => simp [isortDesc]
  | cons p ps ih =>
    refine insertDesc_pairwise ?_ (ih (fun x hx => hl x (List.mem_cons_of_mem p hx)))
    intro x hx
    exact hl x (List.mem_cons_of_mem p ((isortDesc_perm ps).subset hx))

theorem insertDesc_filter_eq {q : PyNum} (hq : 0 < q.den) (p : α × PyNum)
    (l : List (α × PyNum)) :
    (insertDesc p l).filter (fun x => PyNum.eqB x.2 q) =
      if PyNum.eqB p.2 q then p :: l.filter (fun x => PyNum.eqB x.2 q)
      else l.filter (fun x => PyNum.eqB x.2 q) := by
  induction l with
  | nil =>
    simp only [insertDesc, List.filter_cons, List.filter_nil]
  | cons r rs ih =>
    simp only [insertDesc]
    by_cases hle : PyNum.leB r.2 p.2 = true
    · simp only [if_pos hle, List.filter_cons]
    · simp only [if_neg hle, List.filter_cons, ih]
      by_cases hpq : PyNum.eqB p.2 q = true
      · have hrq : PyNum.eqB r.2 q = false := by
          by_contra hc
          exact absurd (PyNum.leB_of_eqB_eqB hq hpq (by simpa using hc)) hle
        simp [hpq, hrq]
      · simp [hpq]

theorem isortDesc_filter_eq {q : PyNum} (hq : 0 < q.den) (l : List (α × PyNum)) :
    (isortDesc l).filter (fun x => PyNum.eqB x.2 q) =
      l.filter (fun x => PyNum.eqB x.2 q) := by
  induction l with
  | nil => rfl
  | cons p ps ih =>
    unfold isortDesc
    rw [insertDesc_filter_eq hq, ih, List.filter_cons]

-- ===================== pipeline invariants =====================

theorem pyFloat_den_pos {s : String} {x : PyNum} (h : pyFloat s = some x) : 0 < x.den := by
  unfold pyFloat at h
  dsimp only at h
  split at h
  · split_ifs at h
    · injection h with h; subst h; positivity
    · injection h with h; subst h; positivity
  · split_ifs at h
    · injection h with h; subst h; positivity
    · injection h with h; subst h; positivity

theorem _num_den_pos {nutrition : List (String × NutritionEntry)} {key : String}
    {x : PyNum} (h : _num nutrition key = some x) : 0 < x.den := by
  unfold _num at h
  dsimp only at h
  split_ifs at h
  exact pyFloat_den_pos h

theorem optDenPos_some {o : Option PyNum} {x : PyNum} (h : optDenPos o)
    (he : o = some x) : 0 < x.den := by
  subst he
  exact h

theorem optDenPos_num (nutrition : List (String × NutritionEntry)) (key : String) :
    optDenPos (_num nutrition key) := by
  rcases h : _num nutrition key with _ | x
  · trivial
  · exact _num_den_pos h

theorem normalize_item_numsWf {raw : RawPayload} {name id : String}
    {r : NutritionRecord} (h : normalize_item raw name id = .ok r) : r.numsWf := by
  unfold normalize_item at h
  split at h
  · cases h
  · dsimp only at h
    split at h
    · cases h
    · injection h with h
      subst h
      exact ⟨optDenPos_num _ _, optDenPos_num _ _, optDenPos_num _ _,
        optDenPos_num _ _, optDenPos_num _ _⟩

theorem get_protein_score_den_pos {r : NutritionRecord} {p : PyNum}
    (hp : optDenPos r.protein_g) (h : get_protein_score r = .ok p) : 0 < p.den := by
  unfold get_protein_score pyMul pyDiv at h
  rcases hpg : r.protein_g with _ | a <;> rw [hpg] at h
  · cases h
  · dsimp only at h
    rcases hcal : r.calories with _ | c <;> rw [hcal] at h
    · cases h
    · dsimp only at h
      split_ifs at h with h0
      injection h with h
      subst h
      exact PyNum.div_den_pos (PyNum.mul_den_pos (optDenPos_some hp hpg) Nat.one_pos) h0

theorem get_volume_score_den_pos {r : NutritionRecord} {v : PyNum}
    (hs : optDenPos r.serving_size) (h : get_volume_score r = .ok v) : 0 < v.den := by
  unfold get_volume_score pyMul pyDiv at h
  rcases hss : r.serving_size with _ | a <;> rw [hss] at h
  · cases h
  · dsimp only at h
    rcases hcal : r.calories with _ | c <;> rw [hcal] at h
    · cases h
    · dsimp only at h
      split_ifs at h with h0
      injection h with h
      subst h
      exact PyNum.div_den_pos (PyNum.mul_den_pos (optDenPos_some hs hss) Nat.one_pos) h0

theorem score_den_pos {r : NutritionRecord} {s : PyNum} (hwf : r.numsWf)
    (h : score r = .ok s) : 0 < s.den := by
  obtain ⟨_, hp, _, _, hss⟩ := hwf
  unfold score at h
  rcases hps : get_protein_score r with e | p <;> rw [hps] at h
  · cases h
  · rcases hvs : get_volume_score r with e | v <;> rw [hvs] at h
    · cases h
    · injection h with h
      subst h
      exact PyNum.mul_den_pos (get_protein_score_den_pos hp hps)
        (get_volume_score_den_pos hss hvs)

-- ===================== pipeline characterizations =====================

theorem processOne_eq_some {mc mp : Int} {t : FetchOutcome} {r : NutritionRecord}
    (h : processOne mc mp t = some r) :
    ∃ raw, t.2 = .ok raw ∧ normalize_item raw t.1.name t.1.id = .ok r ∧
      allowed mc mp r = .ok true := by
  unfold processOne at h
  rcases ht : t.2 with e | raw <;> rw [ht] at h
  · dsimp only at h
    cases h
  · dsimp only at h
    rcases hn : normalize_item raw t.1.name t.1.id with e | n <;> rw [hn] at h
    · dsimp only at h
      cases h
    · dsimp only at h
      rcases ha : allowed mc mp n with e | b <;> rw [ha] at h
      · dsimp only at h
        cases h
      · dsimp only at h
        cases b with
        | false => cases h
        | true =>
          injection h with h
          subst h
          exact ⟨raw, rfl, hn, ha⟩

theorem mem_get_healthy_meals {mc mp : Int} {tasks : List FetchOutcome}
    {r : NutritionRecord} (h : r ∈ get_healthy_meals mc mp tasks) :
    ∃ raw name id, normalize_item raw name id = .ok r ∧ allowed mc mp r = .ok true := by
  unfold get_healthy_meals at h
  rcases List.mem_filterMap.mp h with ⟨t, _, hp⟩
  rcases processOne_eq_some hp with ⟨raw, _, hn, ha⟩
  exact ⟨raw, t.1.name, t.1.id, hn, ha⟩

theorem get_healthy_meals_numsWf {mc mp : Int} {tasks : List FetchOutcome}
    {r : NutritionRecord} (h : r ∈ get_healthy_meals mc mp tasks) : r.numsWf := by
  rcases mem_get_healthy_meals h with ⟨raw, name, id, hn, _⟩
  exact normalize_item_numsWf hn

theorem allowed_eq_ok_true {mc mp : Int} {r : NutritionRecord}
    (h : allowed mc mp r = .ok true) :
    ∃ c p, r.calories = some c ∧ PyNum.ltB (PyNum.ofInt mc) c = false ∧
      r.protein_g = some p ∧ PyNum.ltB p (PyNum.ofInt mp) = false := by
  unfold allowed at h
  rcases hc : r.calories with _ | c <;> rw [hc] at h
  · cases h
  · dsimp only at h
    split_ifs at h with h1
    · simp at h
    · rcases hp : r.protein_g with _ | p <;> rw [hp] at h
      · cases h
      · dsimp only at h
        split_ifs at h with h2
        · simp at h
        · exact ⟨c, p, rfl, by simpa using h1, rfl, by simpa using h2⟩

theorem map_fst_filter_scoreEq {q : PyNum} {l : List (NutritionRecord × PyNum)}
    (hl : ∀ p ∈ l, score p.1 = .ok p.2) :
    (l.map Prod.fst).filter (scoreEqB q) = (l.filter (fun p => PyNum.eqB p.2 q)).map Prod.fst := by
  induction l with
  | nil => rfl
  | cons p ps ih =>
    have hp : scoreEqB q p.1 = PyNum.eqB p.2 q := by
      unfold scoreEqB
      rw [hl p (List.mem_cons_self p ps)]
    have hrest := ih (fun x hx => hl x (List.mem_cons_of_mem p hx))
    simp only [List.map_cons, List.filter_cons, hp]
    by_cases hpq : PyNum.eqB p.2 q = true
    · simp [hpq, hrest]
    · simp [hpq, hrest]

theorem mainRanking_ok_elim {mc mp : Int} {topN : Nat} {tasks : List FetchOutcome}
    {out : List NutritionRecord} (h : mainRanking mc mp topN tasks = .ok out) :
    ∃ ks, exMapM score (get_healthy_meals mc mp tasks) = .ok ks ∧
      out = ((isortDesc ((get_healthy_meals mc mp tasks).zip ks)).map Prod.fst).take topN := by
  unfold mainRanking at h
  rcases hks : exMapM score (get_healthy_meals mc mp tasks) with e | ks <;> rw [hks] at h
  · cases h
  · dsimp only at h
    injection h with h
    exact ⟨ks, rfl, h.symm⟩

theorem zip_score_facts {mc mp : Int} {tasks : List FetchOutcome} {ks : List PyNum}
    (hks : exMapM score (get_healthy_meals mc mp tasks) = .ok ks) :
    ∀ p ∈ (get_healthy_meals mc mp tasks).zip ks,
      score p.1 = .ok p.2 ∧ p.1 ∈ get_healthy_meals mc mp tasks ∧ 0 < p.2.den := by
  intro p hp
  have h1 := exMapM_ok_zip hks p hp
  have h2 : p.1 ∈ get_healthy_meals mc mp tasks := (List.mem_zip hp).1
  exact ⟨h1, h2, score_den_pos (get_healthy_meals_numsWf h2) h1⟩

-- ===================== claims =====================

/-- Claim C1, counterexample: `allowed` applied to a record with absent
`calories` does not return `false` — it raises `TypeError` (Python compares
`None > int`), so `DietaryFilter.passes` is not total and does not map absent
fields to `false`. -/
theorem allowed_absent_calories_raises_cex :
    allowed MAX_CALORIES MIN_GRAMS_PROTEIN recNoCalories = .error PyErr.typeError ∧
    allowed MAX_CALORIES MIN_GRAMS_PROTEIN recNoCalories ≠ .ok false ∧
    recNoCalories.calories = none := by decide

/-- Claim C1, amended: for every configuration and every record whose
`calories` is absent — or whose `calories` is present and within the cap but
whose `protein_g` is absent — `allowed` raises `TypeError` instead of
returning `false`; inside `get_healthy_meals` that exception is swallowed by
the per-item handler, so such a record can never be collected
(`processOne` never yields it). -/
theorem allowed_absent_field_raises (mc mp : Int) (r : NutritionRecord)
    (h : r.calories = none ∨
      ∃ c, r.calories = some c ∧ PyNum.ltB (PyNum.ofInt mc) c = false ∧
        r.protein_g = none) :
    allowed mc mp r = .error PyErr.typeError ∧
    ∀ t : FetchOutcome, processOne mc mp t ≠ some r := by
  have herr : allowed mc mp r = .error PyErr.typeError := by
    rcases h with hnone | ⟨c, hc, hle, hpn⟩
    · unfold allowed
      rw [hnone]
    · unfold allowed
      rw [hc]
      dsimp only
      rw [if_neg (by simp [hle]), hpn]
  refine ⟨herr, ?_⟩
  intro t ht
  rcases processOne_eq_some ht with ⟨raw, _, _, ha⟩
  rw [herr] at ha
  cases ha

/-- Witness for the amended C1 theorem at a concrete record. -/
theorem allowed_absent_field_raises_witness :
    allowed 850 25 recNoCalories = .error PyErr.typeError ∧
    ∀ t : FetchOutcome, processOne 850 25 t ≠ some recNoCalories :=
  allowed_absent_field_raises 850 25 recNoCalories (Or.inl (by decide))

/-- Claim C2: the code has no protection against `calories = 0`.  The record
built from nutrition values `calories="0"`, `proteinContent="30"`,
`servingSize="1"` passes `allowed` (0 is not above the cap, 30 g meets the
minimum), is collected by `get_healthy_meals`, and then `score` raises
`ZeroDivisionError` while `sorted(..., key=score)` runs in `main`, outside
the per-item handler — the whole ranking run aborts with the division
fault. -/
theorem calories_zero_division_fault :
    allowed MAX_CALORIES MIN_GRAMS_PROTEIN recZeroCal = .ok true ∧
    get_healthy_meals MAX_CALORIES MIN_GRAMS_PROTEIN tasksZeroCal = [recZeroCal] ∧
    score recZeroCal = .error PyErr.zeroDivisionError ∧
    mainRanking MAX_CALORIES MIN_GRAMS_PROTEIN TOP_N tasksZeroCal =
      .error PyErr.zeroDivisionError := by decide

/-- Claim C3: for every configuration and every set of fetch outcomes, each
record in the ranked output has `calories` present with value at most
`maxCalories` and `protein_g` present with value at least `minProtein`
(values read through the rational interpretation `PyNum.toRat`). -/
theorem mainRanking_output_within_thresholds (mc mp : Int) (_hmc : 0 < mc) (_hmp : 0 ≤ mp)
    (topN : Nat) (tasks : List FetchOutcome) (out : List NutritionRecord)
    (hout : mainRanking mc mp topN tasks = .ok out) :
    ∀ r ∈ out, (∃ c, r.calories = some c ∧ c.toRat ≤ (mc : ℚ)) ∧
      (∃ p, r.protein_g = some p ∧ (mp : ℚ) ≤ p.toRat) := by
  intro r hr
  rcases mainRanking_ok_elim hout with ⟨ks, hks, hE⟩
  subst hE
  have hr1 : r ∈ (isortDesc ((get_healthy_meals mc mp tasks).zip ks)).map Prod.fst :=
    (List.take_sublist _ _).subset hr
  rcases List.mem_map.mp hr1 with ⟨p, hpS, hfst⟩
  have hpzip := (isortDesc_perm _).subset hpS
  have hmem : p.1 ∈ get_healthy_meals mc mp tasks := (List.mem_zip hpzip).1
  rw [hfst] at hmem
  have hwf := get_healthy_meals_numsWf hmem
  rcases mem_get_healthy_meals hmem with ⟨raw, name, id, hn, ha⟩
  rcases allowed_eq_ok_true ha with ⟨c, pg, hc, hlc, hp, hlp⟩
  obtain ⟨hcw, hpw, _, _, _⟩ := hwf
  refine ⟨⟨c, hc, ?_⟩, ⟨pg, hp, ?_⟩⟩
  · have := PyNum.ltB_false_le (PyNum.ofInt_den_pos mc) (optDenPos_some hcw hc) hlc
    rwa [PyNum.toRat_ofInt] at this
  · have := PyNum.ltB_false_le (optDenPos_some hpw hp) (PyNum.ofInt_den_pos mp) hlp
    rwa [PyNum.toRat_ofInt] at this

/-- Witness for the C3 theorem at a concrete run. -/
theorem mainRanking_output_within_thresholds_witness :
    (∃ c, recGood.calories = some c ∧ c.toRat ≤ (850 : ℚ)) ∧
    (∃ p, recGood.protein_g = some p ∧ (25 : ℚ) ≤ p.toRat) :=
  mainRanking_output_within_thresholds 850 25 (by decide) (by decide) 5 tasksMixed
    [recGood] (by decide) recGood (by decide)

/-- Claim C4: for every set of fetch outcomes, when the ranking succeeds the
output has length at most `topN`, every output record has a defined score,
the output is sorted in non-increasing score order (scores read through
`PyNum.toRat`), and when at most `topN` records survive filtering the output
is a permutation of all of them (possibly zero). -/
theorem mainRanking_topN_sorted (mc mp : Int) (topN : Nat)
    (tasks : List FetchOutcome) (out : List NutritionRecord)
    (hout : mainRanking mc mp topN tasks = .ok out) :
    out.length ≤ topN ∧
    (∀ r ∈ out, ∃ s, score r = .ok s) ∧
    out.Pairwise (fun a b => ∀ sa sb, score a = .ok sa → score b = .ok sb →
      sb.toRat ≤ sa.toRat) ∧
    ((get_healthy_meals mc mp tasks).length ≤ topN →
      out.Perm (get_healthy_meals mc mp tasks)) := by
  rcases mainRanking_ok_elim hout with ⟨ks, hks, hE⟩
  subst hE
  have hfacts := zip_score_facts hks
  have hSsub : ∀ p ∈ isortDesc ((get_healthy_meals mc mp tasks).zip ks),
      p ∈ (get_healthy_meals mc mp tasks).zip ks :=
    fun p hp => (isortDesc_perm _).subset hp
  refine ⟨?_, ?_, ?_, ?_⟩
  · rw [List.length_take]
    exact min_le_left _ _
  · intro r hr
    have hr1 := (List.take_sublist _ _).subset hr
    rcases List.mem_map.mp hr1 with ⟨p, hpS, hfst⟩
    exact ⟨p.2, hfst ▸ (hfacts p (hSsub p hpS)).1⟩
  · have hpairS : (isortDesc ((get_healthy_meals mc mp tasks).zip ks)).Pairwise
        (fun a b => PyNum.leB b.2 a.2 = true) :=
      isortDesc_pairwise (fun x hx => (hfacts x hx).2.2)
    have hpairS2 : (isortDesc ((get_healthy_meals mc mp tasks).zip ks)).Pairwise
        (fun a b => ∀ sa sb, score a.1 = .ok sa → score b.1 = .ok sb →
          sb.toRat ≤ sa.toRat) := by
      refine List.Pairwise.imp_of_mem ?_ hpairS
      intro a b ha hb hle sa sb hsa hsb
      have hfa := hfacts a (hSsub a ha)
      have hfb := hfacts b (hSsub b hb)
      have hsa2 : sa = a.2 := by
        rw [hfa.1] at hsa
        exact (Except.ok.inj hsa).symm
      have hsb2 : sb = b.2 := by
        rw [hfb.1] at hsb
        exact (Except.ok.inj hsb).symm
      subst hsa2
      subst hsb2
      exact (PyNum.leB_iff hfb.2.2 hfa.2.2).mp hle
    exact (List.pairwise_map.mpr hpairS2).sublist (List.take_sublist _ _)
  · intro hlen
    have hkl : ks.length = (get_healthy_meals mc mp tasks).length := exMapM_ok_length hks
    have hSlen : (isortDesc ((get_healthy_meals mc mp tasks).zip ks)).length =
        (get_healthy_meals mc mp tasks).length := by
      rw [(isortDesc_perm _).length_eq, List.length_zip, hkl, min_self]
    have hfull : (((isortDesc ((get_healthy_meals mc mp tasks).zip ks)).map
        Prod.fst).take topN) =
        (isortDesc ((get_healthy_meals mc mp tasks).zip ks)).map Prod.fst :=
      List.take_of_length_le (by rw [List.length_map, hSlen]; exact hlen)
    rw [hfull]
    have h1 := (isortDesc_perm ((get_healthy_meals mc mp tasks).zip ks)).map Prod.fst
    rwa [List.map_fst_zip _ _ (le_of_eq hkl.symm)] at h1

/-- Witness for the C4 theorem at a concrete run with two surviving
records. -/
theorem mainRanking_topN_sorted_witness :
    ([recGood, recTie] : List NutritionRecord).length ≤ 5 ∧
    (∀ r ∈ ([recGood, recTie] : List NutritionRecord), ∃ s, score r = .ok s) ∧
    List.Pairwise (fun a b => ∀ sa sb, score a = .ok sa → score b = .ok sb →
      sb.toRat ≤ sa.toRat) [recGood, recTie] ∧
    ((get_healthy_meals 850 25 tasksTie).length ≤ 5 →
      List.Perm [recGood, recTie] (get_healthy_meals 850 25 tasksTie)) :=
  mainRanking_topN_sorted 850 25 5 tasksTie [recGood, recTie] (by decide)

/-- Claim C5: a record that passes the dietary filter but has an absent
`serving_size` (here: `servingSize` with an empty value) is collected by
`get_healthy_meals` — the per-item handler covers only fetch, normalize and
filter — and then `score` raises `TypeError` (`None * 100`) inside
`sorted(..., key=score)` in `main`, outside any handler, so the whole
ranking run aborts instead of the item being dropped. -/
theorem missing_serving_size_aborts_run :
    get_healthy_meals MAX_CALORIES MIN_GRAMS_PROTEIN tasksNoServingVal = [recNoServingVal] ∧
    recNoServingVal.serving_size = none ∧
    allowed MAX_CALORIES MIN_GRAMS_PROTEIN recNoServingVal = .ok true ∧
    score recNoServingVal = .error PyErr.typeError ∧
    mainRanking MAX_CALORIES MIN_GRAMS_PROTEIN TOP_N tasksNoServingVal =
      .error PyErr.typeError := by decide

/-- Claim C6: for each numeric nutrition field, `_num` yields `None` when the
key is absent, when the `value` entry is absent or the empty string, and when
the value fails to parse as a float; it is total (returns an `Option`, never
an exception) and touches only its own field. -/
theorem num_field_absent_or_unparseable (nutrition : List (String × NutritionEntry))
    (key : String)
    (h : List.lookup key nutrition = none ∨
      (∃ e, List.lookup key nutrition = some e ∧ (e.value = none ∨ e.value = some "")) ∨
      (∃ e s, List.lookup key nutrition = some e ∧ e.value = some s ∧ pyFloat s = none)) :
    _num nutrition key = none := by
  unfold _num
  rcases h with h | ⟨e, he, hv | hv⟩ | ⟨e, s, he, hv, hp⟩
  · rw [h]
    rfl
  · rw [he]
    dsimp only
    rw [hv]
    rfl
  · rw [he]
    dsimp only
    rw [hv]
    rfl
  · rw [he]
    dsimp only
    rw [hv]
    dsimp only [Option.getD]
    by_cases hs : s = ""
    · simp [hs]
    · simp [hs, hp]

/-- Witness for the C6 theorem: a non-numeric nutrition value. -/
theorem num_field_absent_or_unparseable_witness :
    _num [("fatContent", (⟨some "n/a", none⟩ : NutritionEntry))] "fatContent" = none :=
  num_field_absent_or_unparseable _ _
    (Or.inr (Or.inr ⟨⟨some "n/a", none⟩, "n/a", by decide, rfl, by decide⟩))

/-- Claim C7: when the `servingSize` key is absent from `nutrition_details`,
`normalize_item` raises (`None.get("unit")` → `AttributeError`) instead of
producing a record, and inside `get_healthy_meals` that failure silently
drops just that item: the batch result is exactly the result without it. -/
theorem missing_servingSize_key_drops_item (raw : RawPayload) (name id : String)
    (item : RawItem) (hit : List.lookup id raw.items = some item)
    (hs : List.lookup "servingSize" (item.nutrition_details.getD []) = none) :
    normalize_item raw name id = .error PyErr.attributeError ∧
    ∀ (mc mp : Int) (mi : MenuItem) (pre post : List FetchOutcome),
      mi.name = name → mi.id = id →
      get_healthy_meals mc mp (pre ++ (mi, .ok raw) :: post) =
        get_healthy_meals mc mp (pre ++ post) := by
  have hnorm : normalize_item raw name id = .error PyErr.attributeError := by
    unfold normalize_item
    rw [hit]
    dsimp only
    rw [hs]
  refine ⟨hnorm, ?_⟩
  intro mc mp mi pre post hname hid
  have hnone : processOne mc mp (mi, .ok raw) = none := by
    unfold processOne
    dsimp only
    rw [hname, hid, hnorm]
  unfold get_healthy_meals
  rw [List.filterMap_append, List.filterMap_append, List.filterMap_cons, hnone]

/-- Witness for the C7 theorem at a concrete payload. -/
theorem missing_servingSize_key_drops_item_witness :
    normalize_item (payloadFor "106" itemNoServingKey) "Mystery Dish" "106" =
      .error PyErr.attributeError ∧
    ∀ (mc mp : Int) (mi : MenuItem) (pre post : List FetchOutcome),
      mi.name = "Mystery Dish" → mi.id = "106" →
      get_healthy_meals mc mp (pre ++ (mi, .ok (payloadFor "106" itemNoServingKey)) :: post) =
        get_healthy_meals mc mp (pre ++ post) :=
  missing_servingSize_key_drops_item (payloadFor "106" itemNoServingKey)
    "Mystery Dish" "106" itemNoServingKey (by decide) (by decide)

/-- Claim C8: the final descending sort is stable.  For every score value `q`
(interpreted rationally, with a well-formed denominator): the output records
scoring `q` form a sublist — hence in the same relative order — of the
collected records scoring `q` in fetch-completion order, and when no
truncation happens (at most `topN` survivors) they are exactly that list. -/
theorem mainRanking_stable_ties (mc mp : Int) (topN : Nat)
    (tasks : List FetchOutcome) (out : List NutritionRecord)
    (hout : mainRanking mc mp topN tasks = .ok out) (q : PyNum) (hq : 0 < q.den) :
    List.Sublist (out.filter (scoreEqB q))
      ((get_healthy_meals mc mp tasks).filter (scoreEqB q)) ∧
    ((get_healthy_meals mc mp tasks).length ≤ topN →
      out.filter (scoreEqB q) = (get_healthy_meals mc mp tasks).filter (scoreEqB q)) := by
  rcases mainRanking_ok_elim hout with ⟨ks, hks, hE⟩
  subst hE
  have hfacts := zip_score_facts hks
  have hkl : ks.length = (get_healthy_meals mc mp tasks).length := exMapM_ok_length hks
  have hSfact : ∀ p ∈ isortDesc ((get_healthy_meals mc mp tasks).zip ks),
      score p.1 = .ok p.2 :=
    fun p hp => (hfacts p ((isortDesc_perm _).subset hp)).1
  have hkey : ((isortDesc ((get_healthy_meals mc mp tasks).zip ks)).map
      Prod.fst).filter (scoreEqB q) =
      (get_healthy_meals mc mp tasks).filter (scoreEqB q) := by
    rw [map_fst_filter_scoreEq hSfact, isortDesc_filter_eq hq,
      ← map_fst_filter_scoreEq (fun p hp => (hfacts p hp).1),
      List.map_fst_zip _ _ (le_of_eq hkl.symm)]
  constructor
  · exact hkey ▸ ((List.take_sublist topN _).filter (scoreEqB q))
  · intro hlen
    have hSlen : (isortDesc ((get_healthy_meals mc mp tasks).zip ks)).length =
        (get_healthy_meals mc mp tasks).length := by
      rw [(isortDesc_perm _).length_eq, List.length_zip, hkl, min_self]
    have hfull : (((isortDesc ((get_healthy_meals mc mp tasks).zip ks)).map
        Prod.fst).take topN) =
        (isortDesc ((get_healthy_meals mc mp tasks).zip ks)).map Prod.fst :=
      List.take_of_length_le (by rw [List.length_map, hSlen]; exact hlen)
    rw [hfull, hkey]

/-- Witness for the C8 theorem at a concrete run with two records tied at
score 48. -/
theorem mainRanking_stable_ties_witness :
    List.Sublist (([recGood, recTie] : List NutritionRecord).filter (scoreEqB ⟨48, 1⟩))
      ((get_healthy_meals 850 25 tasksTie).filter (scoreEqB ⟨48, 1⟩)) ∧
    ((get_healthy_meals 850 25 tasksTie).length ≤ 5 →
      ([recGood, recTie] : List NutritionRecord).filter (scoreEqB ⟨48, 1⟩) =
        (get_healthy_meals 850 25 tasksTie).filter (scoreEqB ⟨48, 1⟩)) :=
  mainRanking_stable_ties 850 25 5 tasksTie [recGood, recTie] (by decide) ⟨48, 1⟩
    (by decide)

/-- Claim C9: on the empty list of menu items (no fetch outcomes) the ranking
expression of `main` returns the empty list and raises no error, for every
configuration. -/
theorem mainRanking_empty_input (mc mp : Int) (topN : Nat) :
    mainRanking mc mp topN [] = .ok [] := by
  simp [mainRanking, get_healthy_meals, exMapM, isortDesc]

/-- Claim C10: for every raw payload that normalizes successfully, the
record's `dairy_free` field is true exactly when none of the six dairy
keyword substrings occurs in the lower-cased ingredient string (the record's
`ingredients` field is that lower-cased string). -/
theorem dairy_free_iff_no_keyword (raw : RawPayload) (name id : String)
    (r : NutritionRecord) (h : normalize_item raw name id = .ok r) :
    r.dairy_free = true ↔ ∀ k ∈ dairyKeywords, strContains r.ingredients k = false := by
  unfold normalize_item at h
  split at h
  · cases h
  · dsimp only at h
    split at h
    · cases h
    · injection h with h
      subst h
      dsimp only
      simp only [Bool.not_eq_true', List.any_eq_false, Bool.not_eq_true]

/-- Witness for the C10 theorem at a concrete payload. -/
theorem dairy_free_iff_no_keyword_witness :
    recGood.dairy_free = true ↔
      ∀ k ∈ dairyKeywords, strContains recGood.ingredients k = false :=
  dairy_free_iff_no_keyword (payloadFor "101" itemGood) "Chicken Bowl" "101" recGood
    (by decide)
